import Mathlib

/-!
# Verification of `create_unmanaged_tables`

A shallow embedding of the schema-reconciliation engine in
`django_unmanaged_assistant/management/commands/create_unmanaged_tables.py`.

Python exceptions are modelled by the `PyErr` type and fallible code returns
`Except PyErr _` or pairs a result with an `Option PyErr`.  Mutable field /
model attributes are modelled by explicit state passing over lists, with a
field's or model's list index standing for the Python object identity.
Database responses (catalog queries, DDL outcomes) are passed in as an
explicit environment, since the live database is external to the program.
-/

set_option autoImplicit false

/-- The Python exception kinds that the command can raise or catch.
`valueError` is the spec's `InvalidIdentifier`, `notImplementedError` the
spec's `UnsupportedBackend`, `programmingError` is `django.db.utils.
ProgrammingError`, and `otherError` stands for any other `Exception`
subclass (e.g. `OperationalError`). -/
inductive PyErr where
  | indexError
  | attributeError
  | valueError (msg : String)
  | notImplementedError (msg : String)
  | programmingError (msg : String)
  | otherError (msg : String)
deriving DecidableEq, Repr

deriving instance DecidableEq for Except

/-! ## Python string primitives used by the command -/

/-- Python `c in s` membership test on a string. -/
def pyContains (s : String) (c : Char) : Bool :=
  s.toList.contains c

/-- Split a character list at the first occurrence of `d`
(`none` when `d` does not occur). -/
def splitCharOnce : List Char → Char → Option (List Char × List Char)
  | [], _ => none
  | c :: cs, d =>
    if c = d then some ([], cs)
    else
      match splitCharOnce cs d with
      | none => none
      | some (a, b) => some (c :: a, b)

/-- Python `s.split(".", 1)`: the part before the first `.` and, when a `.`
occurs, the remainder after it. -/
def splitFirstDot (s : String) : String × Option String :=
  match splitCharOnce s.toList '.' with
  | none => (s, none)
  | some (a, b) => (String.mk a, some (String.mk b))

/-- Python `s.strip(chars)`: remove all leading and trailing characters
belonging to `chars`. -/
def pyStrip (chars : List Char) (s : String) : String :=
  String.mk (((s.toList.dropWhile (chars.contains ·)).reverse.dropWhile
    (chars.contains ·)).reverse)

/-- `s.strip('"').strip("'")` as applied to both parts of a parsed table
name. -/
def stripQuoteChars (s : String) : String :=
  pyStrip ['\''] (pyStrip ['"'] s)

/-! ## `get_default_schema` and `parse_table_name` -/

/-- `get_default_schema(connection)`: the default schema for a connection,
dispatching on the vendor string; `None` for unrecognized vendors. -/
def get_default_schema (vendor : String) : Option String :=
  if vendor = "postgresql" then some "public"
  else if vendor = "microsoft" then some "dbo"
  else if vendor = "sqlite" then some "main"
  else none

/-- `parse_table_name(connection, table_name)`.  The bracketed branch
evaluates `parts[1]`, which raises `IndexError` when the name contains no
dot; the bare-name branch calls `.strip` on the result of
`get_default_schema`, which raises `AttributeError` when that is `None`. -/
def parse_table_name (vendor : String) (table_name : String) :
    Except PyErr (String × String) :=
  if pyContains table_name '[' && pyContains table_name ']' then
    match (splitFirstDot table_name).2 with
    | none => .error .indexError
    | some p1 =>
      .ok (stripQuoteChars (pyStrip ['[', ']'] (splitFirstDot table_name).1),
        stripQuoteChars (pyStrip ['[', ']'] p1))
  else if pyContains table_name '.' then
    match (splitFirstDot table_name).2 with
    | none => .error .indexError
    | some p1 =>
      .ok (stripQuoteChars (splitFirstDot table_name).1, stripQuoteChars p1)
  else
    match get_default_schema vendor with
    | none => .error .attributeError
    | some ds => .ok (stripQuoteChars ds, stripQuoteChars table_name)

/-! ## `types_are_compatible` -/

/-- The fixed `compatible_types` table, keyed by type family. -/
def compatible_types : List (String × List String) :=
  [("int", ["int", "integer", "smallint", "bigint"]),
   ("varchar", ["varchar", "char", "text", "nvarchar", "nchar"]),
   ("float", ["float", "real", "double precision"]),
   ("decimal", ["decimal", "numeric"]),
   ("datetime", ["datetime", "timestamp", "date", "time"]),
   ("bool", ["bool", "boolean", "bit"])]

/-- Python `s.lower()` (ASCII case mapping, as all type names here are
ASCII). -/
def pyLower (s : String) : String :=
  String.mk (s.toList.map Char.toLower)

/-- Python `x.lower() if x else ""` where `x` may be `None` or a string. -/
def pyLowerOrEmpty : Option String → String
  | none => ""
  | some s => if s = "" then "" else pyLower s

/-- `types_are_compatible(existing_type, expected_type)`: true when some
family of `compatible_types` contains both lowered inputs. -/
def types_are_compatible (existing_type expected_type : Option String) :
    Bool :=
  let e := pyLowerOrEmpty existing_type
  let x := pyLowerOrEmpty expected_type
  compatible_types.any fun p => p.2.contains e && p.2.contains x

/-! ## Lemmas on the split primitive -/

lemma splitCharOnce_eq_none_iff (l : List Char) (d : Char) :
    splitCharOnce l d = none ↔ d ∉ l := by
  induction l with
  | nil => simp [splitCharOnce]
  | cons c cs ih =>
    by_cases hc : c = d
    · subst hc; simp [splitCharOnce]
    · cases h : splitCharOnce cs d with
      | none =>
        rw [h] at ih
        simp [splitCharOnce, hc, h, Ne.symm hc]
        exact ih.mp rfl
      | some p =>
        rw [h] at ih
        simp [splitCharOnce, hc, h, Ne.symm hc]
        by_contra hmem
        exact (Option.some_ne_none p (ih.mpr hmem)).elim

lemma splitFirstDot_snd_eq_none_iff (t : String) :
    (splitFirstDot t).2 = none ↔ pyContains t '.' = false := by
  unfold splitFirstDot pyContains
  cases h : splitCharOnce t.toList '.' with
  | none =>
    have := (splitCharOnce_eq_none_iff t.toList '.').mp h
    simpa using this
  | some p =>
    have hmem : '.' ∈ t.toList := by
      by_contra hn
      rw [(splitCharOnce_eq_none_iff t.toList '.').mpr hn] at h
      exact Option.noConfusion h
    simp only [Option.some_ne_none, false_iff]
    simp
    exact hmem

/-- **C2** — Identifier parsing: on each of the vendors postgresql,
microsoft and sqlite, `parse_table_name` maps `"[s].[t]"` to `(s, t)`,
splits a dotted name only at the first dot (so `"s.t.u"` yields
`(s, "t.u")`), resolves a bare name against the vendor's default schema
(`public`, `dbo`, `main` respectively), and strips residual single and
double quotes from both parts. -/
theorem parse_table_name_vendor_spec (v : String)
    (h : v = "postgresql" ∨ v = "microsoft" ∨ v = "sqlite") :
    parse_table_name v "[s].[t]" = .ok ("s", "t") ∧
    parse_table_name v "s.t" = .ok ("s", "t") ∧
    parse_table_name v "s.t.u" = .ok ("s", "t.u") ∧
    (∃ d, get_default_schema v = some d ∧
      parse_table_name v "t" = .ok (d, "t")) ∧
    get_default_schema "postgresql" = some "public" ∧
    get_default_schema "microsoft" = some "dbo" ∧
    get_default_schema "sqlite" = some "main" ∧
    parse_table_name v "\"s\".'t'" = .ok ("s", "t") := by
  rcases h with rfl | rfl | rfl
  · exact ⟨by decide, by decide, by decide, ⟨"public", by decide, by decide⟩,
      by decide, by decide, by decide, by decide⟩
  · exact ⟨by decide, by decide, by decide, ⟨"dbo", by decide, by decide⟩,
      by decide, by decide, by decide, by decide⟩
  · exact ⟨by decide, by decide, by decide, ⟨"main", by decide, by decide⟩,
      by decide, by decide, by decide, by decide⟩

/-- Witness for `parse_table_name_vendor_spec` at vendor `"postgresql"`. -/
theorem parse_table_name_vendor_spec_witness :
    parse_table_name "postgresql" "[s].[t]" = .ok ("s", "t") ∧
    parse_table_name "postgresql" "s.t" = .ok ("s", "t") ∧
    parse_table_name "postgresql" "s.t.u" = .ok ("s", "t.u") ∧
    (∃ d, get_default_schema "postgresql" = some d ∧
      parse_table_name "postgresql" "t" = .ok (d, "t")) ∧
    get_default_schema "postgresql" = some "public" ∧
    get_default_schema "microsoft" = some "dbo" ∧
    get_default_schema "sqlite" = some "main" ∧
    parse_table_name "postgresql" "\"s\".'t'" = .ok ("s", "t") :=
  parse_table_name_vendor_spec "postgresql" (Or.inl rfl)

/-- **C3** — Type compatibility oracle: `types_are_compatible` holds iff the
two lowered inputs (absent treated as `""`) lie in a common family of the
fixed `compatible_types` table; in particular
`(INTEGER, int)` and `(varchar, text)` are compatible while
`(int, varchar)` and `("", "")` are not. -/
theorem types_are_compatible_spec :
    (∀ e x : Option String, types_are_compatible e x = true ↔
      ∃ p ∈ compatible_types,
        pyLowerOrEmpty e ∈ p.2 ∧ pyLowerOrEmpty x ∈ p.2) ∧
    types_are_compatible (some "INTEGER") (some "int") = true ∧
    types_are_compatible (some "varchar") (some "text") = true ∧
    types_are_compatible (some "int") (some "varchar") = false ∧
    types_are_compatible (some "") (some "") = false ∧
    types_are_compatible none none = false := by
  refine ⟨fun e x => ?_, by decide, by decide, by decide, by decide,
    by decide⟩
  simp [types_are_compatible, List.any_eq_true]

/-- **C9** (counterexample) — the parser is not total: a bracketed
identifier containing no dot raises `IndexError`, and a bare name on a
vendor without a default schema raises `AttributeError`; neither input
passes through unchanged. -/
theorem parse_table_name_totality_cex :
    parse_table_name "postgresql" "[table]" = .error .indexError ∧
    parse_table_name "oracle" "table" = .error .attributeError := by
  exact ⟨by decide, by decide⟩

/-- **C9** (amended) — Parser totality, amended: `parse_table_name` is a
pure function that never raises on any input containing a dot, nor on a
bare name when the vendor has a default schema; but a bracketed identifier
with no dot raises `IndexError`, and a bare name on a vendor with no
default schema raises `AttributeError` (rather than passing the input
through unchanged). -/
theorem parse_table_name_totality_amended (v t : String) :
    (pyContains t '.' = true → ∃ r, parse_table_name v t = .ok r) ∧
    (pyContains t '.' = false →
      (pyContains t '[' && pyContains t ']') = true →
      parse_table_name v t = .error .indexError) ∧
    (pyContains t '.' = false →
      (pyContains t '[' && pyContains t ']') = false →
      ∀ d, get_default_schema v = some d →
        parse_table_name v t = .ok (stripQuoteChars d, stripQuoteChars t)) ∧
    (pyContains t '.' = false →
      (pyContains t '[' && pyContains t ']') = false →
      get_default_schema v = none →
      parse_table_name v t = .error .attributeError) := by
  refine ⟨fun hdot => ?_, fun hdot hbr => ?_, fun hdot hbr d hd => ?_,
    fun hdot hbr hd => ?_⟩
  · have hs : ¬(splitFirstDot t).2 = none := by
      intro hn
      rw [(splitFirstDot_snd_eq_none_iff t).mp hn] at hdot
      exact Bool.false_ne_true hdot
    obtain ⟨p1, hp1⟩ := Option.ne_none_iff_exists'.mp hs
    by_cases hbr : (pyContains t '[' && pyContains t ']') = true
    · exact ⟨(stripQuoteChars (pyStrip ['[', ']'] (splitFirstDot t).1),
        stripQuoteChars (pyStrip ['[', ']'] p1)),
        by simp [parse_table_name, hbr, hp1]⟩
    · exact ⟨(stripQuoteChars (splitFirstDot t).1, stripQuoteChars p1),
        by simp [parse_table_name, hbr, hdot, hp1]⟩
  · have hs : (splitFirstDot t).2 = none :=
      (splitFirstDot_snd_eq_none_iff t).mpr hdot
    simp [parse_table_name, hbr, hs]
  · simp [parse_table_name, hbr, hdot, hd]
  · simp [parse_table_name, hbr, hdot, hd]

/-- Witness for `parse_table_name_totality_amended`: instantiates every
hypothesis of the four conjuncts at concrete inputs. -/
theorem parse_table_name_totality_amended_witness :
    (∃ r, parse_table_name "postgresql" "s.t" = .ok r) ∧
    parse_table_name "postgresql" "[t]" = .error .indexError ∧
    parse_table_name "microsoft" "t" =
      .ok (stripQuoteChars "dbo", stripQuoteChars "t") ∧
    parse_table_name "oracle" "t" = .error .attributeError :=
  ⟨(parse_table_name_totality_amended "postgresql" "s.t").1 (by decide),
   (parse_table_name_totality_amended "postgresql" "[t]").2.1 (by decide)
     (by decide),
   (parse_table_name_totality_amended "microsoft" "t").2.2.1 (by decide)
     (by decide) "dbo" (by decide),
   (parse_table_name_totality_amended "oracle" "t").2.2.2 (by decide)
     (by decide) (by decide)⟩

/-! ## Model and field state -/

/-- The `on_delete` policies referenced by the command
(`models.DO_NOTHING` is the suppression target). -/
inductive OnDelete where
  | cascade
  | protect
  | restrict
  | set_null
  | set_default
  | do_nothing
deriving DecidableEq, Repr

/-- The attributes of a Django model field that the command reads or
writes: logical name, optional `db_column` override, whether the field is a
`ForeignKey`, its `db_constraint` flag and its `remote_field.on_delete`
policy. -/
structure PyField where
  name : String
  db_column : Option String
  is_fk : Bool
  db_constraint : Bool
  on_delete : OnDelete
deriving DecidableEq, Repr

/-- The attributes of a model that the command reads or writes:
`_meta.managed`, `_meta.db_table` and `_meta.fields` (a field's position in
the list stands for the Python object identity). -/
structure PyModel where
  managed : Bool
  db_table : String
  fields : List PyField
deriving DecidableEq, Repr

/-- Python truthiness of an optional string (`None` and `""` are falsy). -/
def pyTruthyStr : Option String → Bool
  | none => false
  | some s => s != ""

/-- Python `s.endswith(suf)`. -/
def pyEndsWith (s suf : String) : Bool :=
  suf.toList.isSuffixOf s.toList

/-- The column-name resolution performed at the start of
`Command.process_field`: `field.db_column or field.name`, then for foreign
keys either the explicit `db_column` unchanged or an `_id` suffix appended
when not already present. -/
def resolve_column_name (field : PyField) : String :=
  let column_name :=
    match field.db_column with
    | some s => if s = "" then field.name else s
    | none => field.name
  if field.is_fk then
    if pyTruthyStr field.db_column then field.db_column.getD ""
    else if pyEndsWith column_name "_id" then column_name
    else column_name ++ "_id"
  else column_name

/-- **C4** — Column-name resolution: for a foreign-key field the resolved
name is the explicit `db_column` override exactly when one is set,
otherwise the logical name with `_id` appended unless already ending in
`_id`; for a non-foreign-key field it is `db_column` if set, else the field
name. -/
theorem process_field_column_name (f : PyField) :
    (f.is_fk = true → ∀ c, f.db_column = some c → c ≠ "" →
      resolve_column_name f = c) ∧
    (f.is_fk = true → f.db_column = none →
      resolve_column_name f =
        (if pyEndsWith f.name "_id" then f.name else f.name ++ "_id")) ∧
    (f.is_fk = false → ∀ c, f.db_column = some c → c ≠ "" →
      resolve_column_name f = c) ∧
    (f.is_fk = false → f.db_column = none →
      resolve_column_name f = f.name) := by
  refine ⟨fun hk c hc hne => ?_, fun hk hc => ?_, fun hk c hc hne => ?_,
    fun hk hc => ?_⟩
  · simp [resolve_column_name, pyTruthyStr, hk, hc, hne]
  · simp [resolve_column_name, pyTruthyStr, hk, hc]
  · simp [resolve_column_name, pyTruthyStr, hk, hc, hne]
  · simp [resolve_column_name, pyTruthyStr, hk, hc]

/-- Witness for `process_field_column_name`: an FK field named
`related_model` without override resolves to `related_model_id`; with the
override `"mixed_unmanaged_model_ID"` it resolves to exactly that string. -/
theorem process_field_column_name_witness :
    resolve_column_name ⟨"related_model", none, true, true, .cascade⟩ =
      "related_model_id" ∧
    resolve_column_name
      ⟨"related_model", some "mixed_unmanaged_model_ID", true, true,
        .cascade⟩ = "mixed_unmanaged_model_ID" := by
  constructor
  · have h :=
      (process_field_column_name
        ⟨"related_model", none, true, true, .cascade⟩).2.1 rfl rfl
    rw [h]; decide
  · exact (process_field_column_name
      ⟨"related_model", some "mixed_unmanaged_model_ID", true, true,
        .cascade⟩).1 rfl "mixed_unmanaged_model_ID" rfl (by decide)

/-! ## Foreign-key suppression (`handle_foreign_keys` /
`restore_foreign_keys`) -/

/-- One `field.db_constraint = c; field.remote_field.on_delete = od`
assignment, addressed by the field's position. -/
def updateField : List PyField → Nat → Bool → OnDelete → List PyField
  | [], _, _, _ => []
  | f :: fs, 0, c, od => { f with db_constraint := c, on_delete := od } :: fs
  | f :: fs, n + 1, c, od => f :: updateField fs n c od

/-- `restore_foreign_keys(original_settings)`: replay every saved
`(field, db_constraint, on_delete)` triple onto the current fields. -/
def restore_foreign_keys (original_settings : List (Nat × Bool × OnDelete))
    (fields : List PyField) : List PyField :=
  original_settings.foldl (fun fs s => updateField fs s.1 s.2.1 s.2.2) fields

/-- The in-place mutation `handle_foreign_keys` applies to a foreign-key
field: `db_constraint = False`, `on_delete = models.DO_NOTHING`. -/
def suppressFKField (f : PyField) : PyField :=
  if f.is_fk then { f with db_constraint := false, on_delete := .do_nothing }
  else f

/-- The `original_settings` list accumulated by the `for field in
model._meta.fields` loop of `handle_foreign_keys`, with fields addressed by
position starting at `n`. -/
def fkSavedFrom : Nat → List PyField → List (Nat × Bool × OnDelete)
  | _, [] => []
  | n, f :: fs =>
    if f.is_fk then
      (n, f.db_constraint, f.on_delete) :: fkSavedFrom (n + 1) fs
    else fkSavedFrom (n + 1) fs

/-- `handle_foreign_keys(model)`: managed models are untouched and yield an
empty settings list; for unmanaged models every foreign-key field is
suppressed and its original settings recorded. -/
def handle_foreign_keys (m : PyModel) :
    PyModel × List (Nat × Bool × OnDelete) :=
  if m.managed then (m, [])
  else ({ m with fields := m.fields.map suppressFKField },
    fkSavedFrom 0 m.fields)

/-- The `try ... finally restore_foreign_keys(original_fk_settings)` shape
of `Command.create_table_for_model`: suppress, run the create/alter
sequence `body` (which may stop with an exception), then always restore. -/
def runFkScope (m : PyModel)
    (body : List PyField → List PyField × Option PyErr) :
    List PyField × Option PyErr :=
  let ms := handle_foreign_keys m
  let r := body ms.1.fields
  (restore_foreign_keys ms.2 r.1, r.2)

lemma updateField_getElem? (fs : List PyField) (j : Nat) (c : Bool)
    (od : OnDelete) (i : Nat) :
    (updateField fs j c od)[i]? =
      if i = j then
        fs[i]?.map (fun f => { f with db_constraint := c, on_delete := od })
      else fs[i]? := by
  induction fs generalizing i j with
  | nil => simp [updateField]
  | cons f fs ih =>
    cases j with
    | zero =>
      cases i with
      | zero => simp [updateField]
      | succ i => simp [updateField]
    | succ j =>
      cases i with
      | zero => simp [updateField]
      | succ i =>
        simp only [updateField, List.getElem?_cons_succ]
        simpa using ih j i

lemma mem_fkSavedFrom_bound (fs : List PyField) :
    ∀ n, ∀ p ∈ fkSavedFrom n fs, n ≤ p.1 := by
  induction fs with
  | nil => intro n p hp; simp [fkSavedFrom] at hp
  | cons f fs ih =>
    intro n p hp
    by_cases hk : f.is_fk
    · rw [fkSavedFrom, if_pos hk] at hp
      rcases List.mem_cons.mp hp with h | h
      · subst h; exact le_refl n
      · exact le_trans (Nat.le_succ n) (ih (n + 1) p h)
    · rw [fkSavedFrom, if_neg hk] at hp
      exact le_trans (Nat.le_succ n) (ih (n + 1) p hp)

lemma fkSavedFrom_fst_nodup (fs : List PyField) :
    ∀ n, ((fkSavedFrom n fs).map Prod.fst).Nodup := by
  induction fs with
  | nil => intro n; simp [fkSavedFrom]
  | cons f fs ih =>
    intro n
    by_cases hk : f.is_fk
    · rw [fkSavedFrom, if_pos hk]
      refine List.nodup_cons.mpr ⟨?_, ih (n + 1)⟩
      intro hmem
      obtain ⟨p, hp, hfst⟩ := List.mem_map.mp hmem
      have := mem_fkSavedFrom_bound fs (n + 1) p hp
      omega
    · rw [fkSavedFrom, if_neg hk]
      exact ih (n + 1)

lemma fkSavedFrom_mem_of_getElem? (fs : List PyField) :
    ∀ n k f, fs[k]? = some f → f.is_fk = true →
      (n + k, f.db_constraint, f.on_delete) ∈ fkSavedFrom n fs := by
  induction fs with
  | nil => intro n k f hf _; simp at hf
  | cons g fs ih =>
    intro n k f hf hfk
    cases k with
    | zero =>
      simp only [List.getElem?_cons_zero, Option.some_inj] at hf
      subst hf
      rw [fkSavedFrom, if_pos hfk]
      exact List.mem_cons_self _ _
    | succ k =>
      simp only [List.getElem?_cons_succ] at hf
      have hmem := ih (n + 1) k f hf hfk
      have harith : n + (k + 1) = (n + 1) + k := by omega
      rw [harith]
      by_cases hk : g.is_fk
      · rw [fkSavedFrom, if_pos hk]; exact List.mem_cons_of_mem _ hmem
      · rw [fkSavedFrom, if_neg hk]; exact hmem


lemma restore_cons (s : Nat × Bool × OnDelete)
    (rest : List (Nat × Bool × OnDelete)) (fs : List PyField) :
    restore_foreign_keys (s :: rest) fs =
      restore_foreign_keys rest (updateField fs s.1 s.2.1 s.2.2) := rfl

lemma restore_getElem?_not_mem (saved : List (Nat × Bool × OnDelete)) :
    ∀ (fs : List PyField) (i : Nat), i ∉ saved.map Prod.fst →
      (restore_foreign_keys saved fs)[i]? = fs[i]? := by
  induction saved with
  | nil => intro fs i _; rfl
  | cons s rest ih =>
    intro fs i hi
    have hi1 : i ∉ rest.map Prod.fst := fun h => hi (List.mem_cons_of_mem _ h)
    have hine : i ≠ s.1 := by
      intro h
      exact hi (by simp [h])
    rw [restore_cons, ih _ i hi1, updateField_getElem?, if_neg hine]

lemma restore_getElem?_mem (saved : List (Nat × Bool × OnDelete)) :
    ∀ (_ : (saved.map Prod.fst).Nodup) (i : Nat) (c : Bool) (od : OnDelete),
      (i, c, od) ∈ saved → ∀ fs : List PyField,
      (restore_foreign_keys saved fs)[i]? =
        fs[i]?.map
          (fun f => { f with db_constraint := c, on_delete := od }) := by
  induction saved with
  | nil => intro _ i c od hmem; exact absurd hmem (List.not_mem_nil _)
  | cons s rest ih =>
    intro hnd i c od hmem fs
    simp only [List.map_cons] at hnd
    obtain ⟨hhead, htail⟩ := List.nodup_cons.mp hnd
    rcases List.mem_cons.mp hmem with h | h
    · subst h
      rw [restore_cons,
        restore_getElem?_not_mem rest _ i (by simpa using hhead),
        updateField_getElem?, if_pos rfl]
    · have hfst : i ∈ rest.map Prod.fst := List.mem_map.mpr ⟨(i, c, od), h, rfl⟩
      have hine : i ≠ s.1 := fun he => hhead (he ▸ hfst)
      rw [restore_cons, ih htail i c od h, updateField_getElem?, if_neg hine]

/-- **C1** — FK suppression round-trip: for every model, running
`handle_foreign_keys`, then any create/alter sequence `body` that may stop
with an exception but does not itself touch constraint settings, then
`restore_foreign_keys` in the `finally` block, leaves every foreign-key
field's `db_constraint` flag and `on_delete` policy equal to their
pre-suppression values — also when `body` reports an exception. -/
theorem fk_suppression_roundtrip (m : PyModel)
    (body : List PyField → List PyField × Option PyErr)
    (hbody : ∀ (fs : List PyField) (i : Nat), ((body fs).1[i]?).map
        (fun g => (g.db_constraint, g.on_delete)) =
      fs[i]?.map (fun f => (f.db_constraint, f.on_delete))) :
    ∀ (i : Nat) (f : PyField), m.fields[i]? = some f → f.is_fk = true →
      ((runFkScope m body).1[i]?).map
          (fun g => (g.db_constraint, g.on_delete)) =
        some (f.db_constraint, f.on_delete) := by
  intro i f hf hfk
  by_cases hm : m.managed
  · have h1 : (runFkScope m body).1 = (body m.fields).1 := by
      simp [runFkScope, handle_foreign_keys, hm, restore_foreign_keys]
    rw [h1, hbody m.fields i, hf]
    rfl
  · have hmem : (i, f.db_constraint, f.on_delete) ∈ fkSavedFrom 0 m.fields := by
      have := fkSavedFrom_mem_of_getElem? m.fields 0 i f hf hfk
      simpa using this
    have hres : (runFkScope m body).1[i]? =
        ((body (m.fields.map suppressFKField)).1[i]?).map
          (fun g => { g with db_constraint := f.db_constraint, on_delete := f.on_delete }) := by
      show (restore_foreign_keys (handle_foreign_keys m).2
        (body (handle_foreign_keys m).1.fields).1)[i]? = _
      rw [show (handle_foreign_keys m).2 = fkSavedFrom 0 m.fields by
            simp [handle_foreign_keys, hm],
          show (handle_foreign_keys m).1.fields =
              m.fields.map suppressFKField by
            simp [handle_foreign_keys, hm]]
      exact restore_getElem?_mem _ (fkSavedFrom_fst_nodup m.fields 0) i _ _
        hmem _
    rw [hres, Option.map_map]
    have hb := hbody (m.fields.map suppressFKField) i
    cases hx : (body (m.fields.map suppressFKField)).1[i]? with
    | none =>
      rw [hx] at hb
      rw [List.getElem?_map, hf] at hb
      exact absurd hb (by simp)
    | some g => rfl

/-- A foreign-key field with non-default settings, used to witness the FK
round-trip. -/
def fkWitnessField : PyField := ⟨"related", none, true, true, .cascade⟩

/-- An unmanaged model holding `fkWitnessField`. -/
def fkWitnessModel : PyModel := ⟨false, "t", [fkWitnessField]⟩

/-- A create/alter sequence that leaves the fields alone and stops with a
`ProgrammingError`, simulating a failure between suppress and restore. -/
def fkWitnessBody : List PyField → List PyField × Option PyErr :=
  fun fs => (fs, some (.programmingError "boom"))

/-- Witness for `fk_suppression_roundtrip`: even though `fkWitnessBody`
simulates an exception between suppress and restore, the field's settings
are restored. -/
theorem fk_suppression_roundtrip_witness :
    ((runFkScope fkWitnessModel fkWitnessBody).1[0]?).map
      (fun g => (g.db_constraint, g.on_delete)) = some (true, .cascade) :=
  fk_suppression_roundtrip fkWitnessModel fkWitnessBody
    (fun _ _ => rfl) 0 fkWitnessField rfl rfl

/-! ## The database environment

Catalog query results and DDL outcomes are inputs from the live database;
they are passed to the embedded command as an explicit environment.
`none` as an outcome means the operation succeeded, `some e` that the
database driver raised `e`. -/

structure Env where
  vendor : String
  table_exists : Bool
  mssqlSchemaExists : Bool
  schemaExecOutcome : Option PyErr
  createOutcome : Option PyErr
  columnExists : String → Bool
  addFieldOutcome : String → Option PyErr

/-- `Command.process_field`, restricted to its effects on the field and the
reported errors: resolve the column name; when the column is missing, set
`field.db_column` to the resolved name, call `add_field`, and — only after
a successful call — set it back; `except Exception` catches any failure and
reports it. -/
def process_field_sim (env : Env) (f : PyField) : PyField × List PyErr :=
  let column_name := resolve_column_name f
  if env.columnExists column_name = false then
    let original_db_column := f.db_column
    let f1 := { f with db_column := some column_name }
    match env.addFieldOutcome column_name with
    | none => ({ f1 with db_column := original_db_column }, [])
    | some e => (f1, [e])
  else (f, [])

/-- An environment in which the column is missing and `add_field` raises. -/
def envAddFails : Env :=
  ⟨"postgresql", true, false, none, none, fun _ => false,
    fun _ => some (.otherError "boom")⟩

/-- The same environment with a succeeding `add_field`. -/
def envAddOk : Env := { envAddFails with addFieldOutcome := fun _ => none }

/-- A foreign-key field without a `db_column` override. -/
def colWitnessField : PyField := ⟨"related_model", none, true, true, .cascade⟩

/-- **C7** — evaluation at the failing input: when `add_field` raises, the
`except` handler swallows the exception but the restore statement inside
the `try` was skipped, so the field keeps `db_column =
"related_model_id"` although it was `None` before the call; when
`add_field` succeeds the original `db_column` is restored. -/
theorem process_field_db_column_clobbered :
    (process_field_sim envAddFails colWitnessField).1.db_column =
      some "related_model_id" ∧
    colWitnessField.db_column = none ∧
    (process_field_sim envAddOk colWitnessField).1.db_column = none := by
  exact ⟨rfl, rfl, rfl⟩

/-! ## Temporary table names (`temporary_table_name` / `process_models`) -/

/-- `get_formatted_table_name(connection, schema, table)`. -/
def get_formatted_table_name (vendor schema table : String) : String :=
  if vendor = "postgresql" then
    "\"" ++ schema ++ "\".\"" ++ table ++ "\""
  else if vendor = "microsoft" ∨ vendor = "mssql" then
    "[" ++ schema ++ "].[" ++ table ++ "]"
  else schema ++ "." ++ table

/-- The `__enter__` part of `temporary_table_name(model, connection)`: save
the original `db_table`, and for non-sqlite vendors rewrite it to the fully
qualified, vendor-quoted form (parsing may raise). -/
def temporary_table_apply (vendor : String) (m : PyModel) :
    Except PyErr (PyModel × String) :=
  let original_db_table := m.db_table
  if vendor = "sqlite" then .ok (m, original_db_table)
  else
    match parse_table_name vendor original_db_table with
    | .error e => .error e
    | .ok p =>
      .ok ({ m with db_table := get_formatted_table_name vendor p.1 p.2 },
        original_db_table)

/-- The `ExitStack` enter loop of `Command.process_models`: apply the
temporary table name to every model of the group, collecting the saved
originals. -/
def enterContexts (vendor : String) :
    List PyModel → Except PyErr (List PyModel × List String)
  | [] => .ok ([], [])
  | m :: ms =>
    match temporary_table_apply vendor m with
    | .error e => .error e
    | .ok p =>
      match enterContexts vendor ms with
      | .error e => .error e
      | .ok q => .ok (p.1 :: q.1, p.2 :: q.2)

/-- Unwinding the `ExitStack`: each context's `finally` sets its own
model's `db_table` back to the saved original. -/
def restoreTables (origs : List String) (ms : List PyModel) : List PyModel :=
  List.zipWith (fun o m => { m with db_table := o }) origs ms

/-- The schema-editing scope of `Command.process_models` for one
connection's group: enter all temporary-table-name contexts, run the
per-model processing `body` (which may stop with an exception), and unwind
the stack, restoring every model's `db_table`. -/
def process_models_scope (vendor : String) (ms : List PyModel)
    (body : List PyModel → List PyModel × Option PyErr) :
    Except PyErr (List PyModel × Option PyErr) :=
  match enterContexts vendor ms with
  | .error e => .error e
  | .ok p => .ok (restoreTables p.2 (body p.1).1, (body p.1).2)

lemma temporary_table_apply_orig (vendor : String) (m m' : PyModel)
    (o : String) (h : temporary_table_apply vendor m = .ok (m', o)) :
    o = m.db_table := by
  unfold temporary_table_apply at h
  by_cases hv : vendor = "sqlite"
  · rw [if_pos hv] at h
    simp only [Except.ok.injEq, Prod.mk.injEq] at h
    exact h.2.symm
  · rw [if_neg hv] at h
    cases hp : parse_table_name vendor m.db_table with
    | error e => rw [hp] at h; exact Except.noConfusion h
    | ok p =>
      rw [hp] at h
      simp only [Except.ok.injEq, Prod.mk.injEq] at h
      exact h.2.symm

lemma enterContexts_spec (vendor : String) :
    ∀ (ms patched : List PyModel) (origs : List String),
      enterContexts vendor ms = .ok (patched, origs) →
      origs = ms.map (fun m => m.db_table) ∧
        patched.length = ms.length := by
  intro ms
  induction ms with
  | nil =>
    intro patched origs h
    simp only [enterContexts] at h
    cases h
    exact ⟨rfl, rfl⟩
  | cons m ms ih =>
    intro patched origs h
    simp only [enterContexts] at h
    cases ha : temporary_table_apply vendor m with
    | error e => rw [ha] at h; exact Except.noConfusion h
    | ok p =>
      rw [ha] at h
      cases he : enterContexts vendor ms with
      | error e => rw [he] at h; exact Except.noConfusion h
      | ok q =>
        rw [he] at h
        cases h
        obtain ⟨h1, h2⟩ := ih q.1 q.2 he
        refine ⟨?_, ?_⟩
        · simp only [List.map_cons, h1]
          rw [temporary_table_apply_orig vendor m p.1 p.2 ha]
        · simp [h2]

lemma restoreTables_map_db_table :
    ∀ (origs : List String) (after : List PyModel),
      origs.length = after.length →
      (restoreTables origs after).map (fun m => m.db_table) = origs := by
  intro origs
  induction origs with
  | nil => intro after _; rfl
  | cons o os ih =>
    intro after h
    cases after with
    | nil => exact absurd h (by simp)
    | cons a as =>
      simp only [restoreTables, List.zipWith_cons_cons, List.map_cons]
      refine congrArg (o :: ·) ?_
      exact ih as (by simpa using h)

/-- **C8** — Table-identifier rewrite invariant: whenever the
schema-editing scope of `process_models` exits with the stack unwound —
whether the per-model processing finished normally or stopped with an
exception — every model's stored `db_table` equals its value from before
the group was processed. -/
theorem table_identifier_scope_restored (vendor : String)
    (ms : List PyModel)
    (body : List PyModel → List PyModel × Option PyErr)
    (hbody : ∀ xs : List PyModel, (body xs).1.length = xs.length)
    (result : List PyModel) (e : Option PyErr)
    (h : process_models_scope vendor ms body = .ok (result, e)) :
    result.map (fun m => m.db_table) = ms.map (fun m => m.db_table) := by
  unfold process_models_scope at h
  cases henter : enterContexts vendor ms with
  | error e' => rw [henter] at h; exact Except.noConfusion h
  | ok p =>
    rw [henter] at h
    obtain ⟨horigs, hlen⟩ := enterContexts_spec vendor ms p.1 p.2 henter
    cases h
    rw [restoreTables_map_db_table p.2 (body p.1).1
      (by rw [hbody p.1, hlen, horigs, List.length_map]), horigs]

/-- A model of an unmanaged table named `s.t`, for the scope witness. -/
def scopeWitnessModel : PyModel := ⟨false, "s.t", []⟩

/-- A per-model processing step that stops with an exception. -/
def scopeWitnessBody : List PyModel → List PyModel × Option PyErr :=
  fun xs => (xs, some (.otherError "boom"))

/-- Witness for `table_identifier_scope_restored`: on postgresql the model
is temporarily renamed to `"s"."t"` and restored to `s.t` although the
body stopped with an exception. -/
theorem table_identifier_scope_restored_witness :
    [PyModel.mk false "s.t" []].map (fun m => m.db_table) =
      [scopeWitnessModel].map (fun m => m.db_table) :=
  table_identifier_scope_restored "postgresql" [scopeWitnessModel]
    scopeWitnessBody (fun _ => rfl) [⟨false, "s.t", []⟩]
    (some (.otherError "boom")) (by decide)

/-! ## Schema creation and the per-model driver -/

/-- A character allowed by the schema-name pattern `[A-Za-z0-9_.]`. -/
def schemaCharOk (c : Char) : Bool :=
  c.isAlpha || c.isDigit || c = '_' || c = '.'

/-- Python `re.match(r"^[A-Za-z0-9_.]+$", s) is not None`.  In Python's
`re`, `$` matches at the end of the string or just before one trailing
newline, so a schema of allowed characters followed by a single final
`'\n'` also matches. -/
def pyRegexMatchValid (s : String) : Bool :=
  (!s.toList.isEmpty && s.toList.all schemaCharOk) ||
    (s.toList.getLast? == some '\n' && !s.toList.dropLast.isEmpty &&
      s.toList.dropLast.all schemaCharOk)

/-- `create_schema_if_not_exists(connection, schema)`: validate the name
(raising `ValueError` — the spec's `InvalidIdentifier` — before opening a
cursor), then dispatch on the vendor; returns the statements issued
together with the exception raised, if any.  `env.schemaExecOutcome` is the
database's response to the cursor work. -/
def create_schema_if_not_exists (env : Env) (schema : String) :
    List String × Option PyErr :=
  if pyRegexMatchValid schema = false then
    ([], some (.valueError schema))
  else if env.vendor = "sqlite" then ([], none)
  else if env.vendor = "postgresql" then
    (["CREATE SCHEMA IF NOT EXISTS " ++ schema], env.schemaExecOutcome)
  else if env.vendor = "microsoft" ∨ env.vendor = "mssql" then
    match env.schemaExecOutcome with
    | some e => (["SELECT 1 FROM sys.schemas WHERE name = " ++ schema],
        some e)
    | none =>
      if env.mssqlSchemaExists then
        (["SELECT 1 FROM sys.schemas WHERE name = " ++ schema], none)
      else
        (["SELECT 1 FROM sys.schemas WHERE name = " ++ schema,
          "CREATE SCHEMA [" ++ schema ++ "]"], none)
  else ([], some (.notImplementedError env.vendor))

/-- The `if schema: create_schema_if_not_exists(...)` guard of
`Command.create_table_for_model` (an empty schema string is falsy). -/
def ensure_schema (env : Env) (schema : String) : List String × Option PyErr :=
  if schema = "" then ([], none) else create_schema_if_not_exists env schema

/-- `Command.create_model_table`: when the table is missing, call the
schema editor's `create_model`; only `ProgrammingError` is caught and
reported (result `false`), any other exception propagates.  Returns
`(return value, create_model invoked, reported errors)`. -/
def create_model_table (texists : Bool) (outcome : Option PyErr) :
    Except PyErr (Bool × Bool × List PyErr) :=
  if texists = false then
    match outcome with
    | none => .ok (true, true, [])
    | some (.programmingError msg) =>
      .ok (false, true, [.programmingError msg])
    | some e => .error e
  else .ok (true, false, [])

/-- The field loop of `Command.create_table_for_model`. -/
def processFields (env : Env) : List PyField → List PyField × List PyErr
  | [] => ([], [])
  | f :: fs =>
    ((process_field_sim env f).1 :: (processFields env fs).1,
      (process_field_sim env f).2 ++ (processFields env fs).2)

/-- The observable outcome of one `create_table_for_model` call:
the exception that escaped it (if any), the errors caught and reported,
whether `create_model` was invoked, whether the field loop ran, and the
fields' final state. -/
structure DriverResult where
  raised : Option PyErr
  reported : List PyErr
  createCalled : Bool
  fieldsProcessed : Bool
  fieldsAfter : List PyField
deriving Repr

/-- `Command.create_table_for_model`: suppress FKs; parse the table name,
ensure the schema, ensure the table (stopping field processing on a
`false` result), process each field; restore FKs in the `finally` block.
Exceptions escaping any inner step escape the whole call. -/
def create_table_for_model_run (env : Env) (m : PyModel) : DriverResult :=
  let hm := handle_foreign_keys m
  let r : DriverResult :=
    match parse_table_name env.vendor m.db_table with
    | .error e => ⟨some e, [], false, false, hm.1.fields⟩
    | .ok st =>
      match (ensure_schema env st.1).2 with
      | some e => ⟨some e, [], false, false, hm.1.fields⟩
      | none =>
        match create_model_table env.table_exists env.createOutcome with
        | .error e => ⟨some e, [], true, false, hm.1.fields⟩
        | .ok tr =>
          if tr.1 = false then ⟨none, tr.2.2, tr.2.1, false, hm.1.fields⟩
          else
            ⟨none, tr.2.2 ++ (processFields env hm.1.fields).2, tr.2.1,
              true, (processFields env hm.1.fields).1⟩
  { r with fieldsAfter := restore_foreign_keys hm.2 r.fieldsAfter }

/-- The `for model in models: self.create_table_for_model(...)` loop of
`Command.process_models`; it has no exception handler, so a raising call
aborts the remaining models and the exception escapes. -/
def process_models_run (env : Env) :
    List PyModel → List DriverResult × Option PyErr
  | [] => ([], none)
  | m :: ms =>
    match (create_table_for_model_run env m).raised with
    | some e => ([create_table_for_model_run env m], some e)
    | none =>
      (create_table_for_model_run env m :: (process_models_run env ms).1,
        (process_models_run env ms).2)

lemma create_model_table_error (t : Bool) (o : Option PyErr) (e : PyErr)
    (h : create_model_table t o = .error e) :
    o = some e ∧ ∀ msg, e ≠ .programmingError msg := by
  cases t with
  | true => simp [create_model_table] at h
  | false =>
    cases o with
    | none => simp [create_model_table] at h
    | some w =>
      cases w <;> simp_all [create_model_table] <;> subst h <;> simp

/-- **C5** — ensureTable result semantics: `create_model_table` returns
`true` without invoking `create_model` when the table exists; when it does
not, it invokes `create_model`, returning `true` on success and, on a
`ProgrammingError` from the database, reporting it and returning `false`
without raising; a `false` return makes `create_table_for_model` skip the
field loop without raising, and the `process_models` loop then continues
with the later models. -/
theorem create_model_table_spec :
    (∀ o : Option PyErr, create_model_table true o = .ok (true, false, [])) ∧
    create_model_table false none = .ok (true, true, []) ∧
    (∀ msg, create_model_table false (some (.programmingError msg)) =
      .ok (false, true, [.programmingError msg])) ∧
    (∀ (env : Env) (m : PyModel) (st : String × String) (b : Bool)
        (rep : List PyErr),
      parse_table_name env.vendor m.db_table = .ok st →
      (ensure_schema env st.1).2 = none →
      create_model_table env.table_exists env.createOutcome =
        .ok (false, b, rep) →
      (create_table_for_model_run env m).fieldsProcessed = false ∧
      (create_table_for_model_run env m).raised = none ∧
      (create_table_for_model_run env m).reported = rep) ∧
    (∀ (env : Env) (m : PyModel) (ms : List PyModel),
      (create_table_for_model_run env m).raised = none →
      process_models_run env (m :: ms) =
        (create_table_for_model_run env m :: (process_models_run env ms).1,
          (process_models_run env ms).2)) := by
  refine ⟨fun o => by simp [create_model_table], rfl, fun msg => rfl,
    fun env m st b rep hp hs hc => ?_, fun env m ms hr => ?_⟩
  · simp only [create_table_for_model_run, hp, hs, hc]
    exact ⟨rfl, rfl, rfl⟩
  · simp only [process_models_run]
    rw [hr]

/-- The environment of the `create_model_table` witness: the table is
missing and `create_model` fails with a `ProgrammingError`. -/
def env5 : Env :=
  ⟨"postgresql", false, false, none, some (.programmingError "dup"),
    fun _ => true, fun _ => none⟩

/-- An unmanaged model on table `s.t` without fields. -/
def model5 : PyModel := ⟨false, "s.t", []⟩

/-- Witness for `create_model_table_spec`: with a failing `create_model`,
field processing is skipped, nothing is raised, and both models of a
two-model group are still visited. -/
theorem create_model_table_spec_witness :
    (create_table_for_model_run env5 model5).fieldsProcessed = false ∧
    (create_table_for_model_run env5 model5).raised = none ∧
    (process_models_run env5 [model5, model5]).1.length = 2 := by
  have h4 := create_model_table_spec.2.2.2.1 env5 model5 ("s", "t") true
    [.programmingError "dup"] (by decide) (by decide) (by decide)
  have h5 := create_model_table_spec.2.2.2.2 env5 model5 [model5] h4.2.1
  have h6 := create_model_table_spec.2.2.2.2 env5 model5 [] h4.2.1
  refine ⟨h4.1, h4.2.1, ?_⟩
  rw [h5, h6]
  simp [process_models_run]

/-- The environment of the C6 counterexample: the `CREATE SCHEMA`
statement itself fails with a `ProgrammingError`. -/
def env6 : Env :=
  ⟨"postgresql", false, false, some (.programmingError "permission denied"),
    none, fun _ => true, fun _ => none⟩

/-- An unmanaged model on table `s.t` without fields. -/
def model6 : PyModel := ⟨false, "s.t", []⟩

/-- **C6** (counterexample) — a `ProgrammingError` raised by the
schema-creation DDL statement — which is neither `InvalidIdentifier` nor
`UnsupportedBackend` — is not caught and reported at that operation: it
escapes `create_table_for_model`, and the `process_models` loop stops
after the first of two models. -/
theorem error_propagation_cex :
    (create_table_for_model_run env6 model6).raised =
      some (.programmingError "permission denied") ∧
    (create_table_for_model_run env6 model6).reported = [] ∧
    (process_models_run env6 [model6, model6]).1.length = 1 ∧
    (process_models_run env6 [model6, model6]).2 =
      some (.programmingError "permission denied") :=
  ⟨rfl, rfl, rfl, rfl⟩

/-- **C6** (amended) — error propagation, amended: an exception escapes
`create_table_for_model` only from identifier parsing, from the
schema-creation statements on a non-empty schema, or from a
non-`ProgrammingError` failure of `create_model`; field processing and
`ProgrammingError` during table creation never raise, and whenever an
exception escapes, the field loop did not run. -/
theorem error_propagation_amended (env : Env) (m : PyModel) (e : PyErr)
    (h : (create_table_for_model_run env m).raised = some e) :
    (parse_table_name env.vendor m.db_table = .error e ∨
      (∃ st : String × String,
        parse_table_name env.vendor m.db_table = .ok st ∧ st.1 ≠ "" ∧
        (create_schema_if_not_exists env st.1).2 = some e) ∨
      (create_model_table env.table_exists env.createOutcome = .error e ∧
        env.createOutcome = some e ∧
        ∀ msg, e ≠ .programmingError msg)) ∧
    (create_table_for_model_run env m).fieldsProcessed = false := by
  cases hp : parse_table_name env.vendor m.db_table with
  | error w =>
    have hw : (create_table_for_model_run env m).raised = some w := by
      simp only [create_table_for_model_run, hp]
    rw [h] at hw
    obtain rfl : e = w := Option.some_inj.mp hw
    refine ⟨Or.inl rfl, ?_⟩
    simp only [create_table_for_model_run, hp]
  | ok st =>
    cases hs : (ensure_schema env st.1).2 with
    | some w =>
      have hw : (create_table_for_model_run env m).raised = some w := by
        simp only [create_table_for_model_run, hp, hs]
      rw [h] at hw
      obtain rfl : e = w := Option.some_inj.mp hw
      have hne : st.1 ≠ "" := by
        intro h0
        rw [ensure_schema, if_pos h0] at hs
        exact Option.noConfusion hs
      have hcs : (create_schema_if_not_exists env st.1).2 = some e := by
        rw [ensure_schema, if_neg hne] at hs
        exact hs
      refine ⟨Or.inr (Or.inl ⟨st, rfl, hne, hcs⟩), ?_⟩
      simp only [create_table_for_model_run, hp, hs]
    | none =>
      cases hc : create_model_table env.table_exists env.createOutcome with
      | error w =>
        have hw : (create_table_for_model_run env m).raised = some w := by
          simp only [create_table_for_model_run, hp, hs, hc]
        rw [h] at hw
        obtain rfl : e = w := Option.some_inj.mp hw
        obtain ⟨ho, hnp⟩ := create_model_table_error _ _ _ hc
        refine ⟨Or.inr (Or.inr ⟨rfl, ho, hnp⟩), ?_⟩
        simp only [create_table_for_model_run, hp, hs, hc]
      | ok tr =>
        by_cases ht : tr.1 = false
        · have hw : (create_table_for_model_run env m).raised = none := by
            simp [create_table_for_model_run, hp, hs, hc, ht]
          rw [h] at hw
          exact absurd hw (by simp)
        · have hw : (create_table_for_model_run env m).raised = none := by
            simp [create_table_for_model_run, hp, hs, hc, ht]
          rw [h] at hw
          exact absurd hw (by simp)

/-- Witness for `error_propagation_amended` at the concrete failing
schema-creation statement of `env6`. -/
theorem error_propagation_amended_witness :
    (parse_table_name env6.vendor model6.db_table =
        .error (.programmingError "permission denied") ∨
      (∃ st : String × String,
        parse_table_name env6.vendor model6.db_table = .ok st ∧
        st.1 ≠ "" ∧
        (create_schema_if_not_exists env6 st.1).2 =
          some (.programmingError "permission denied")) ∨
      (create_model_table env6.table_exists env6.createOutcome =
          .error (.programmingError "permission denied") ∧
        env6.createOutcome = some (.programmingError "permission denied") ∧
        ∀ msg, (PyErr.programmingError "permission denied") ≠
          .programmingError msg)) ∧
    (create_table_for_model_run env6 model6).fieldsProcessed = false :=
  error_propagation_amended env6 model6
    (.programmingError "permission denied") rfl

/-- A sqlite environment for the schema-validation claims. -/
def envSqlite : Env :=
  ⟨"sqlite", true, false, none, none, fun _ => true, fun _ => none⟩

/-- **C10** (counterexample) — `"abc\n"` contains a character outside
letters, digits, underscore and period, yet `create_schema_if_not_exists`
does not raise `InvalidIdentifier` on it: Python's `re.match(..$)` also
matches just before one trailing newline, so the name passes validation
and the sqlite branch returns normally. -/
theorem schema_validation_cex :
    schemaCharOk '\n' = false ∧
    pyContains "abc\n" '\n' = true ∧
    create_schema_if_not_exists envSqlite "abc\n" = ([], none) :=
  ⟨rfl, rfl, rfl⟩

/-- **C10** (amended) — schema validation, amended: for every schema
string rejected by Python's `^[A-Za-z0-9_.]+$` match — which accepts one
or more allowed characters optionally followed by a single trailing
newline — `create_schema_if_not_exists` raises `InvalidIdentifier` before
dispatching on the vendor (sqlite included) and executes no statement. -/
theorem schema_validation_amended (env : Env) (schema : String) :
    (pyRegexMatchValid schema = false →
      create_schema_if_not_exists env schema =
        ([], some (.valueError schema))) ∧
    pyRegexMatchValid "abc\n" = true ∧
    pyRegexMatchValid "abc" = true ∧
    pyRegexMatchValid "\n" = false ∧
    pyRegexMatchValid "" = false := by
  refine ⟨fun h => ?_, by decide, by decide, by decide, by decide⟩
  simp [create_schema_if_not_exists, h]

/-- Witness for `schema_validation_amended` at the invalid name `"a b"` on
the sqlite environment. -/
theorem schema_validation_amended_witness :
    create_schema_if_not_exists envSqlite "a b" =
      ([], some (.valueError "a b")) :=
  (schema_validation_amended envSqlite "a b").1 (by decide)
